import Mathlib

/-!
Verification of the caseintake backend (src/server.js and the earlier
variant src/unnamed/part_000): a shallow embedding of the sliding-window
rate limiter, the intake-credential lifecycle (create / validate /
save-report-and-deactivate) and the credential generation code, together
with theorems settling the specification claims.

Conventions of the embedding:
* JS strings are Lean `String`s; where character-level structure matters
  (passcodes, case identifiers) we work with `List Char`.
* `Date.now()` timestamps are `Nat` milliseconds.  The JS comparison
  `now - timestamp < WINDOW` keeps future timestamps (negative < WINDOW);
  truncated `Nat` subtraction gives `0 < WINDOW`, the same behaviour.
* The Firestore collections are total functions with an `Option` result
  (`get` of a missing document yields `none`); `Map.get(ip) || []`
  becomes a total function into `List Nat` defaulting to `[]`.
* `bcrypt.hash` / `bcrypt.compare` are external collaborators and enter
  as function parameters (`bhash`, `bcompare`).
* `await` calls that may throw are modelled by explicit success flags
  where a claim is about failure behaviour.
-/

/-! ### Sliding-window rate limiter (src/server.js lines 37-55) -/

/-- RATE_LIMIT_WINDOW_MS = 60 * 1000 (both source versions). -/
def RATE_LIMIT_WINDOW_MS : Nat := 60 * 1000

/-- MAX_REQUESTS_PER_WINDOW: 20 in src/server.js line 40; the earlier
variant src/unnamed/part_000 line 39 uses 15. -/
def MAX_REQUESTS_PER_WINDOW : Nat := 20

/-- The rate-limit store: per-identity (ip) list of admitted-request
timestamps; `rateLimitStore.get(ip) || []` defaults to the empty list. -/
def RateStore : Type := String → List Nat

/-- The empty rate-limit store (`new Map()`). -/
def emptyRateStore : RateStore := fun _ => []

/-- Pointwise update of the rate store (`rateLimitStore.set(ip, l)`). -/
def RateStore.set (store : RateStore) (ip : String) (l : List Nat) : RateStore :=
  fun k => if k = ip then l else store k

/-- The rateLimiter middleware, src/server.js lines 42-55, parametric in
the window `W` and capacity `cap` (the source fixes them to
RATE_LIMIT_WINDOW_MS and MAX_REQUESTS_PER_WINDOW).  Returns
`(some 429, store)` when the request is rejected (the middleware answers
429 and does not call `next()`, leaving the store untouched) and
`(none, store')` when the request is admitted: the pruned list with `now`
appended is written back and `next()` runs. -/
def rateLimiter (W cap : Nat) (store : RateStore) (ip : String) (now : Nat) :
    Option Nat × RateStore :=
  let userRequests := store ip
  let recentRequests := userRequests.filter (fun timestamp => now - timestamp < W)
  if cap ≤ recentRequests.length then
    (some 429, store)
  else
    (none, store.set ip (recentRequests ++ [now]))

/-- Run a sequence of limiter calls (pairs of identity and timestamp)
from the empty store; models the store states reachable in a process
lifetime. -/
def runRateCalls (W cap : Nat) (calls : List (String × Nat)) : RateStore :=
  calls.foldl (fun s c => (rateLimiter W cap s c.1 c.2).2) emptyRateStore

/-! ### Credential store (Firestore collection intake_logins) -/

/-- A document of the intake_logins collection: the bcrypt hash of the
passcode and a status string ("active" or "used"); the creation
timestamp plays no role in any handler and is omitted. -/
structure CredRecord where
  hashedPasscode : String
  status : String
deriving DecidableEq

/-- The intake_logins collection: `doc(caseId).get()` yields `none` when
the document does not exist. -/
def CredStore : Type := String → Option CredRecord

/-- Document write (`loginRef.set` / the effect of `loginRef.update`). -/
def CredStore.set (db : CredStore) (caseId : String) (rec : CredRecord) : CredStore :=
  fun k => if k = caseId then some rec else db k

/-- A document of the case_reports collection as written by
/api/save-report. -/
structure CaseReport where
  caseNumber : String
  clientName : String
  clientEmail : String
  clientPhone : String
  reportContent : String
deriving DecidableEq

/-- The JSON body of a /api/save-report request; a JS-falsy (absent or
empty) field is the empty string. -/
structure SaveReportRequest where
  clientName : String
  clientEmail : String
  clientPhone : String
  reportContent : String
  caseId : String
deriving DecidableEq

/-- The case_reports document built at src/server.js lines 183-190
(`clientPhone: clientPhone || 'Not provided'`). -/
def reportOf (req : SaveReportRequest) : CaseReport :=
  { caseNumber := req.caseId
    clientName := req.clientName
    clientEmail := req.clientEmail
    clientPhone := if req.clientPhone = "" then "Not provided" else req.clientPhone
    reportContent := req.reportContent }

/-! ### POST /api/validate-intake-credentials (src/server.js lines 255-285)

The route is registered WITHOUT the rateLimiter middleware (compare
`app.post('/api/gemini', rateLimiter, ...)` at line 63 with
`app.post('/api/validate-intake-credentials', async (req, res) ...` at
line 255), so a validate request reaches the handler directly.  Handlers
are embedded uniformly as state transformers returning the HTTP status
and the resulting store. -/

/-- The validate handler.  `bcompare` is the external `bcrypt.compare`
collaborator.  Branches follow the source: falsy (empty) input → 400;
missing document → 404; status ≠ "active" → 403; then 200 or 401 by the
bcrypt comparison. -/
def validateIntake (bcompare : String → String → Bool) (db : CredStore)
    (caseId passcode : String) : Nat × CredStore :=
  if caseId = "" ∨ passcode = "" then (400, db)
  else
    match db caseId with
    | none => (404, db)
    | some loginData =>
      if loginData.status ≠ "active" then (403, db)
      else if bcompare passcode loginData.hashedPasscode then (200, db)
      else (401, db)

/-- A burst of `n` validate requests with the same body, threading the
store; returns the list of HTTP statuses and the final store. -/
def validateSeq (bcompare : String → String → Bool) (db : CredStore) :
    Nat → String → String → List Nat × CredStore
  | 0, _, _ => ([], db)
  | n + 1, caseId, passcode =>
    let r := validateIntake bcompare db caseId passcode
    let rest := validateSeq bcompare r.2 n caseId passcode
    (r.1 :: rest.1, rest.2)

/-! ### POST /api/save-report (src/server.js lines 176-200) -/

/-- The save-report handler: field check, then `case_reports.add`, then
`intake_logins.doc(caseId).update(status:'used')`, each `await` able to
throw into the surrounding catch (status 500).  `addOk` and `updateOk`
model those two failure points; a Firestore `update` on a missing
document also throws (NOT_FOUND).  Returns (status, credential store,
report list): an add failure persists nothing, an update failure leaves
the already-added report in place with the credential untouched. -/
def saveReport (addOk updateOk : Bool) (db : CredStore)
    (reports : List CaseReport) (req : SaveReportRequest) :
    Nat × CredStore × List CaseReport :=
  if req.clientName = "" ∨ req.clientEmail = "" ∨ req.reportContent = "" ∨
      req.caseId = "" then
    (400, db, reports)
  else if addOk = false then
    (500, db, reports)
  else
    let reports' := reports ++ [reportOf req]
    if updateOk = false then
      (500, db, reports')
    else
      match db req.caseId with
      | none => (500, db, reports')
      | some loginData =>
        (200, db.set req.caseId ⟨loginData.hashedPasscode, "used"⟩, reports')

/-! ### Credential generation (src/server.js lines 230-253) -/

/-- Lowercase hexadecimal digits, as used by Buffer.toString('hex'). -/
def hexDigits : List Char :=
  "0123456789abcdef".toList

/-- The hex digit of a value below 16. -/
def hexDigit (n : Nat) : Char := hexDigits.getD n '0'

/-- The two-character lowercase hex rendering of one byte. -/
def byteToHex (b : Nat) : List Char := [hexDigit (b / 16), hexDigit (b % 16)]

/-- Buffer.toString('hex'): each byte becomes two lowercase hex chars. -/
def hexEncode (bytes : List Nat) : List Char := bytes.flatMap byteToHex

/-- The passcode of src/server.js line 237:
`crypto.randomBytes(4).toString('hex').toUpperCase().slice(0, 8)`,
applied to the (four) random bytes drawn. -/
def passcodeOfBytes (bytes : List Nat) : List Char :=
  (((hexEncode bytes).map Char.toUpper)).take 8

/-- The datePart of src/server.js line 233: the ISO date YYYY-MM-DD with
the dashes removed, i.e. the fixed-width zero-padded YYYYMMDD digits of
the current year, month and day. -/
def datePartOf (y m d : Nat) : List Char :=
  [Nat.digitChar (y / 1000 % 10), Nat.digitChar (y / 100 % 10),
   Nat.digitChar (y / 10 % 10), Nat.digitChar (y % 10),
   Nat.digitChar (m / 10 % 10), Nat.digitChar (m % 10),
   Nat.digitChar (d / 10 % 10), Nat.digitChar (d % 10)]

/-- The base-36 digit alphabet of Number.prototype.toString(36). -/
def base36Digits : List Char :=
  "0123456789abcdefghijklmnopqrstuvwxyz".toList

/-- The base-36 digit of a value below 36. -/
def base36Digit (n : Nat) : Char := base36Digits.getD n '0'

/-- Base-36 fraction digits of the dyadic rational k / 2^n (with
k < 2^n): repeatedly multiply by 36 and emit the integer part, stopping
when the remainder is zero.  The first argument is fuel; since 36 = 4·9,
each step raises the 2-adic valuation of the numerator by two, so fuel
n + 1 always reaches the terminating remainder for k < 2^n. -/
def fracDigits36 : Nat → Nat → Nat → List Char
  | 0, _, _ => []
  | fuel + 1, k, n =>
    if k = 0 then []
    else base36Digit (k * 36 / 2 ^ n) :: fracDigits36 fuel (k * 36 % 2 ^ n) n

/-- Number.prototype.toString(36) for a double value k / 2^n in [0, 1):
"0" for zero, otherwise "0." followed by the base-36 fraction digits.
Every double in [0, 1) is such a dyadic rational, and the runtime prints
the exact terminating expansion whenever it ends within the printing
precision (it does for the short draws used below, e.g. 0 ↦ "0" and
1/2 ↦ "0.i"). -/
def jsNumToString36 (k n : Nat) : List Char :=
  if k = 0 then ['0'] else '0' :: '.' :: fracDigits36 (n + 1) k n

/-- The randomPart of src/server.js line 234:
`Math.random().toString(36).substring(2, 6).toUpperCase()` — characters
2 to 5 of the base-36 rendering of the draw, uppercased. -/
def randomPartOf (k n : Nat) : List Char :=
  (((jsNumToString36 k n).drop 2).take 4).map Char.toUpper

/-- The caseId of src/server.js line 235: `CI-` ++ datePart ++ `-` ++
randomPart, for the current date (y, m, d) and the random draw k / 2^n. -/
def caseIdOf (y m d k n : Nat) : List Char :=
  "CI-".toList ++ datePartOf y m d ++ ['-'] ++ randomPartOf k n

/-- POST /api/create-intake-credentials (src/server.js lines 230-253):
renders the caseId from the date and the Math.random draw k / 2^n,
renders the passcode from the four crypto.randomBytes, hashes the
passcode with the external bcrypt collaborator `bhash`, and writes
status "active" at the caseId — overwriting whatever document, of any
status, already sits at that key.  Returns (status, caseId, passcode,
store). -/
def createIntake (bhash : String → String) (y m d k n : Nat)
    (bytes : List Nat) (db : CredStore) : Nat × String × String × CredStore :=
  let caseId := (caseIdOf y m d k n).asString
  let passcode := (passcodeOfBytes bytes).asString
  let hashedPasscode := bhash passcode
  (200, caseId, passcode, db.set caseId ⟨hashedPasscode, "active"⟩)

/-! ### Operation sequences over the credential store -/

/-- The operations of the credential lifecycle that address an existing
credential: a validate request and a save-report (deactivation)
request. -/
inductive IntakeOp where
  | validateOp (caseId passcode : String)
  | saveReportOp (addOk updateOk : Bool) (req : SaveReportRequest)

/-- Apply one operation to the credential store and report list. -/
def applyOp (bcompare : String → String → Bool)
    (st : CredStore × List CaseReport) : IntakeOp → CredStore × List CaseReport
  | .validateOp caseId passcode =>
    ((validateIntake bcompare st.1 caseId passcode).2, st.2)
  | .saveReportOp addOk updateOk req =>
    let r := saveReport addOk updateOk st.1 st.2 req
    (r.2.1, r.2.2)

/-- Run a sequence of validate / save-report operations. -/
def runOps (bcompare : String → String → Bool) (ops : List IntakeOp)
    (db : CredStore) (reports : List CaseReport) : CredStore × List CaseReport :=
  ops.foldl (applyOp bcompare) (db, reports)

/-- C1: for every caller identity, a limiter call with fewer than `cap`
in-window timestamps is admitted (no 429) and the identity's stored list
becomes the pruned list with `now` appended; a call whose pruned
in-window count is at least `cap` answers 429 and leaves the store
unchanged. -/
theorem rateLimiter_admit_reject (W cap : Nat) (store : RateStore)
    (ip : String) (now : Nat) :
    (((store ip).filter (fun t => now - t < W)).length < cap →
      (rateLimiter W cap store ip now).1 = none ∧
      (rateLimiter W cap store ip now).2 ip =
        (store ip).filter (fun t => now - t < W) ++ [now]) ∧
    (cap ≤ ((store ip).filter (fun t => now - t < W)).length →
      (rateLimiter W cap store ip now).1 = some 429 ∧
      (rateLimiter W cap store ip now).2 = store) := by
  constructor
  · intro h
    have hnot : ¬ cap ≤ ((store ip).filter (fun t => now - t < W)).length :=
      Nat.not_le_of_lt h
    simp [rateLimiter, hnot, RateStore.set]
  · intro h
    simp [rateLimiter, h]

/-- Witness for C1 at concrete inputs: with one prior in-window
timestamp and capacity 20 the call is admitted and appends the current
time; on a saturated store (20 in-window stamps) the call answers 429
and the store is untouched. -/
theorem rateLimiter_admit_reject_witness :
    ((rateLimiter RATE_LIMIT_WINDOW_MS MAX_REQUESTS_PER_WINDOW
        (fun _ => [500]) "1.2.3.4" 1000).1 = none ∧
      (rateLimiter RATE_LIMIT_WINDOW_MS MAX_REQUESTS_PER_WINDOW
        (fun _ => [500]) "1.2.3.4" 1000).2 "1.2.3.4" = [500, 1000]) ∧
    ((rateLimiter RATE_LIMIT_WINDOW_MS MAX_REQUESTS_PER_WINDOW
        (fun _ => List.replicate 20 500) "1.2.3.4" 1000).1 = some 429 ∧
      (rateLimiter RATE_LIMIT_WINDOW_MS MAX_REQUESTS_PER_WINDOW
        (fun _ => List.replicate 20 500) "1.2.3.4" 1000).2 =
        (fun _ => List.replicate 20 500)) := by
  have h := (rateLimiter_admit_reject RATE_LIMIT_WINDOW_MS
    MAX_REQUESTS_PER_WINDOW (fun _ => [500]) "1.2.3.4" 1000).1 (by decide)
  have h' := (rateLimiter_admit_reject RATE_LIMIT_WINDOW_MS
    MAX_REQUESTS_PER_WINDOW (fun _ => List.replicate 20 500) "1.2.3.4" 1000).2
    (by decide)
  exact ⟨⟨h.1, by simpa using h.2⟩, h'.1, h'.2⟩

/-- Every per-identity list a single limiter call writes has length at
most the capacity: admission stores the pruned list (shorter than `cap`)
plus one entry, rejection stores nothing. -/
lemma rateLimiter_length_le (W cap : Nat) (store : RateStore) (ip : String)
    (now : Nat) (hstore : ∀ k, (store k).length ≤ cap) :
    ∀ k, (((rateLimiter W cap store ip now).2) k).length ≤ cap := by
  intro k
  by_cases h : cap ≤ ((store ip).filter (fun t => now - t < W)).length
  · simpa [rateLimiter, h] using hstore k
  · by_cases hk : k = ip
    · subst hk
      have hlt : ((store k).filter (fun t => now - t < W)).length < cap :=
        Nat.lt_of_not_le h
      simp [rateLimiter, h, RateStore.set]
      omega
    · simpa [rateLimiter, h, RateStore.set, hk] using hstore k

/-- Every store reachable by a sequence of limiter calls from the empty
store keeps at most `cap` timestamps per identity. -/
lemma runRateCalls_length_le (W cap : Nat) (calls : List (String × Nat)) :
    ∀ k, ((runRateCalls W cap calls) k).length ≤ cap := by
  suffices h : ∀ (calls : List (String × Nat)) (store : RateStore),
      (∀ k, (store k).length ≤ cap) →
      ∀ k, ((calls.foldl (fun s c => (rateLimiter W cap s c.1 c.2).2) store) k).length ≤ cap by
    exact h calls emptyRateStore (fun k => by simp [emptyRateStore])
  intro calls
  induction calls with
  | nil => intro store hstore k; simpa using hstore k
  | cons c rest ih =>
      intro store hstore k
      exact ih _ (rateLimiter_length_le W cap store c.1 c.2 hstore) k

/-- C5: on every store reachable from process start, after any limiter
call — admitted or rejected — the calling identity's stored sequence
contains only timestamps within the trailing window of the call time,
and no other identity's sequence is touched (pruning is lazy and
per-key: each key's list is pruned exactly at that key's admission
checks). -/
theorem rateStore_window_invariant (W cap : Nat) (hW : 0 < W)
    (calls : List (String × Nat)) (ip : String) (now : Nat) :
    (∀ t ∈ ((rateLimiter W cap (runRateCalls W cap calls) ip now).2) ip,
        now - t < W) ∧
    (∀ k, k ≠ ip →
      ((rateLimiter W cap (runRateCalls W cap calls) ip now).2) k =
        (runRateCalls W cap calls) k) := by
  set store := runRateCalls W cap calls with hstoredef
  constructor
  · intro t ht
    unfold rateLimiter at ht
    by_cases h : cap ≤ ((store ip).filter (fun s => now - s < W)).length
    · simp only [h, if_true] at ht
      -- rejection: the stored list is untouched, but rejection forces the
      -- pruned count up to the stored length, so every entry is in-window
      have hlen : (store ip).length ≤ cap := runRateCalls_length_le W cap calls ip
      have hle : ((store ip).filter (fun s => now - s < W)).length ≤ (store ip).length :=
        List.length_filter_le _ _
      have heq : ((store ip).filter (fun s => now - s < W)).length = (store ip).length := by
        omega
      have hall := List.filter_length_eq_length.mp heq
      have := hall t ht
      simpa using this
    · simp only [h, if_false, RateStore.set, if_pos rfl] at ht
      rcases List.mem_append.mp ht with hmem | hmem
      · have := (List.mem_filter.mp hmem).2
        simpa using this
      · have : t = now := by simpa using hmem
        subst this
        simpa using hW
  · intro k hk
    unfold rateLimiter
    by_cases h : cap ≤ ((store ip).filter (fun s => now - s < W)).length
    · simp [h]
    · simp [h, RateStore.set, hk]

/-- Witness for C5: with the real window and capacity, after two calls by
one identity the caller's stored list sits inside the trailing window of
the latest call. -/
theorem rateStore_window_invariant_witness :
    0 < RATE_LIMIT_WINDOW_MS ∧
    (∀ t ∈ ((rateLimiter RATE_LIMIT_WINDOW_MS MAX_REQUESTS_PER_WINDOW
        (runRateCalls RATE_LIMIT_WINDOW_MS MAX_REQUESTS_PER_WINDOW
          [("9.9.9.9", 100)]) "9.9.9.9" 30000).2) "9.9.9.9",
      30000 - t < RATE_LIMIT_WINDOW_MS) ∧
    ((rateLimiter RATE_LIMIT_WINDOW_MS MAX_REQUESTS_PER_WINDOW
        (runRateCalls RATE_LIMIT_WINDOW_MS MAX_REQUESTS_PER_WINDOW
          [("9.9.9.9", 100)]) "9.9.9.9" 30000).2) "8.8.8.8" =
      (runRateCalls RATE_LIMIT_WINDOW_MS MAX_REQUESTS_PER_WINDOW
        [("9.9.9.9", 100)]) "8.8.8.8" := by
  refine ⟨by decide,
    (rateStore_window_invariant RATE_LIMIT_WINDOW_MS MAX_REQUESTS_PER_WINDOW
      (by decide) [("9.9.9.9", 100)] "9.9.9.9" 30000).1, ?_⟩
  exact (rateStore_window_invariant RATE_LIMIT_WINDOW_MS MAX_REQUESTS_PER_WINDOW
    (by decide) [("9.9.9.9", 100)] "9.9.9.9" 30000).2 "8.8.8.8" (by decide)

/-! ### Claims about the credential verifier -/

/-- The validate handler never writes: every branch of src/server.js
lines 255-285 returns after only a `get`, so the resulting store is the
store it was given. -/
lemma validateIntake_snd (bcompare : String → String → Bool) (db : CredStore)
    (caseId passcode : String) :
    (validateIntake bcompare db caseId passcode).2 = db := by
  unfold validateIntake
  split
  · rfl
  · split
    · rfl
    · split
      · rfl
      · split <;> rfl

/-- Since the handler never writes, a burst of identical validate
requests repeats one status and leaves the store fixed. -/
lemma validateSeq_eq (bcompare : String → String → Bool) (db : CredStore)
    (n : Nat) (caseId passcode : String) :
    validateSeq bcompare db n caseId passcode =
      (List.replicate n ((validateIntake bcompare db caseId passcode).1), db) := by
  induction n with
  | zero => rfl
  | succ n ih =>
      simp [validateSeq, validateIntake_snd, ih, List.replicate_succ]

/-- C2: with both fields present, validate(caseId, passcode) returns 404
when no record exists, 403 when the record's status is not "active", and
for an active record 401 when the presented passcode fails the bcrypt
comparison against the stored hash and 200 when it matches. -/
theorem validateIntake_cases (bcompare : String → String → Bool)
    (db : CredStore) (caseId passcode : String)
    (hc : caseId ≠ "") (hp : passcode ≠ "") :
    (db caseId = none → (validateIntake bcompare db caseId passcode).1 = 404) ∧
    (∀ rec, db caseId = some rec → rec.status ≠ "active" →
      (validateIntake bcompare db caseId passcode).1 = 403) ∧
    (∀ rec, db caseId = some rec → rec.status = "active" →
      bcompare passcode rec.hashedPasscode = false →
      (validateIntake bcompare db caseId passcode).1 = 401) ∧
    (∀ rec, db caseId = some rec → rec.status = "active" →
      bcompare passcode rec.hashedPasscode = true →
      (validateIntake bcompare db caseId passcode).1 = 200) := by
  refine ⟨?_, ?_, ?_, ?_⟩
  · intro h; simp [validateIntake, hc, hp, h]
  · intro rec h hs; simp [validateIntake, hc, hp, h, hs]
  · intro rec h hs hcmp; simp [validateIntake, hc, hp, h, hs, hcmp]
  · intro rec h hs hcmp; simp [validateIntake, hc, hp, h, hs, hcmp]

/-- Witness for C2: all four branches at concrete inputs. -/
theorem validateIntake_cases_witness :
    (validateIntake (fun p h => p == h) (fun _ => none) "CI-X" "P1").1 = 404 ∧
    (validateIntake (fun p h => p == h)
      (fun k => if k = "CI-X" then some ⟨"P1", "used"⟩ else none) "CI-X" "P1").1 = 403 ∧
    (validateIntake (fun p h => p == h)
      (fun k => if k = "CI-X" then some ⟨"P1", "active"⟩ else none) "CI-X" "P2").1 = 401 ∧
    (validateIntake (fun p h => p == h)
      (fun k => if k = "CI-X" then some ⟨"P1", "active"⟩ else none) "CI-X" "P1").1 = 200 := by
  refine ⟨?_, ?_, ?_, ?_⟩
  · exact (validateIntake_cases (fun p h => p == h) (fun _ => none) "CI-X" "P1"
      (by decide) (by decide)).1 rfl
  · exact (validateIntake_cases (fun p h => p == h)
      (fun k => if k = "CI-X" then some ⟨"P1", "used"⟩ else none) "CI-X" "P1"
      (by decide) (by decide)).2.1 ⟨"P1", "used"⟩ rfl (by decide)
  · exact (validateIntake_cases (fun p h => p == h)
      (fun k => if k = "CI-X" then some ⟨"P1", "active"⟩ else none) "CI-X" "P2"
      (by decide) (by decide)).2.2.1 ⟨"P1", "active"⟩ rfl rfl (by decide)
  · exact (validateIntake_cases (fun p h => p == h)
      (fun k => if k = "CI-X" then some ⟨"P1", "active"⟩ else none) "CI-X" "P1"
      (by decide) (by decide)).2.2.2 ⟨"P1", "active"⟩ rfl rfl (by decide)

/-- C6: validation is pure on the stored state — the credential store is
identical before and after any validate call — and consequently an
active credential with a matching passcode answers 200 on every request
of an arbitrarily long burst. -/
theorem validateIntake_pure (bcompare : String → String → Bool)
    (db : CredStore) (caseId passcode : String) (n : Nat) :
    (validateIntake bcompare db caseId passcode).2 = db ∧
    (∀ rec, caseId ≠ "" → passcode ≠ "" → db caseId = some rec →
      rec.status = "active" → bcompare passcode rec.hashedPasscode = true →
      ∀ s ∈ (validateSeq bcompare db n caseId passcode).1, s = 200) := by
  refine ⟨validateIntake_snd _ _ _ _, ?_⟩
  intro rec hc hp hdb hs hcmp s hmem
  rw [validateSeq_eq] at hmem
  have h200 : (validateIntake bcompare db caseId passcode).1 = 200 := by
    simp [validateIntake, hc, hp, hdb, hs, hcmp]
  rw [h200] at hmem
  exact List.eq_of_mem_replicate hmem

/-- Witness for C6: a store with one active record is untouched by
validation and a burst of three correct requests is all 200s. -/
theorem validateIntake_pure_witness :
    (validateIntake (fun p h => p == h)
      (fun k => if k = "CI-W" then some ⟨"PW", "active"⟩ else none) "CI-W" "PW").2 =
      (fun k => if k = "CI-W" then some ⟨"PW", "active"⟩ else none) ∧
    ∀ s ∈ (validateSeq (fun p h => p == h)
      (fun k => if k = "CI-W" then some ⟨"PW", "active"⟩ else none) 3 "CI-W" "PW").1,
      s = 200 := by
  refine ⟨(validateIntake_pure (fun p h => p == h)
    (fun k => if k = "CI-W" then some ⟨"PW", "active"⟩ else none) "CI-W" "PW" 3).1, ?_⟩
  exact (validateIntake_pure (fun p h => p == h)
    (fun k => if k = "CI-W" then some ⟨"PW", "active"⟩ else none) "CI-W" "PW" 3).2
    ⟨"PW", "active"⟩ (by decide) (by decide) rfl rfl (by decide)

/-! ### Claims about status monotonicity -/

/-- The save-report handler can only ever write status "used": a key
whose stored status is "used" still holds "used" afterwards. -/
lemma saveReport_preserves_used (addOk updateOk : Bool) (db : CredStore)
    (reports : List CaseReport) (req : SaveReportRequest) (caseId : String)
    (h : (db caseId).map CredRecord.status = some "used") :
    (((saveReport addOk updateOk db reports req).2.1) caseId).map CredRecord.status =
      some "used" := by
  by_cases h1 : req.clientName = "" ∨ req.clientEmail = "" ∨
      req.reportContent = "" ∨ req.caseId = ""
  · simpa [saveReport, h1] using h
  · by_cases h2 : addOk = false
    · simpa [saveReport, h1, h2] using h
    · by_cases h3 : updateOk = false
      · simpa [saveReport, h1, h2, h3] using h
      · cases hdb : db req.caseId with
        | none => simpa [saveReport, h1, h2, h3, hdb] using h
        | some rec =>
            by_cases hk : caseId = req.caseId
            · subst hk
              simp [saveReport, h1, h2, h3, hdb, CredStore.set]
            · simpa [saveReport, h1, h2, h3, hdb, CredStore.set, hk] using h

/-- One validate or save-report operation preserves a "used" status. -/
lemma applyOp_preserves_used (bcompare : String → String → Bool)
    (st : CredStore × List CaseReport) (op : IntakeOp) (caseId : String)
    (h : (st.1 caseId).map CredRecord.status = some "used") :
    (((applyOp bcompare st op).1) caseId).map CredRecord.status = some "used" := by
  cases op with
  | validateOp c p => simpa [applyOp, validateIntake_snd] using h
  | saveReportOp a u req =>
      simpa [applyOp] using
        saveReport_preserves_used a u st.1 st.2 req caseId h

/-- A "used" status survives any sequence of validate and save-report
operations. -/
lemma runOps_preserves_used (bcompare : String → String → Bool)
    (ops : List IntakeOp) (caseId : String) :
    ∀ st : CredStore × List CaseReport,
      (st.1 caseId).map CredRecord.status = some "used" →
      ((ops.foldl (applyOp bcompare) st).1 caseId).map CredRecord.status =
        some "used" := by
  induction ops with
  | nil => intro st h; simpa using h
  | cons op rest ih =>
      intro st h
      exact ih _ (applyOp_preserves_used bcompare st op caseId h)

/-- A save-report call that succeeds (status 200) has written status
"used" at its caseId. -/
lemma saveReport_success_used (addOk updateOk : Bool) (db : CredStore)
    (reports : List CaseReport) (req : SaveReportRequest)
    (h200 : (saveReport addOk updateOk db reports req).1 = 200) :
    (((saveReport addOk updateOk db reports req).2.1) req.caseId).map CredRecord.status =
      some "used" := by
  by_cases h1 : req.clientName = "" ∨ req.clientEmail = "" ∨
      req.reportContent = "" ∨ req.caseId = ""
  · simp [saveReport, h1] at h200
  · by_cases h2 : addOk = false
    · simp [saveReport, h1, h2] at h200
    · by_cases h3 : updateOk = false
      · simp [saveReport, h1, h2, h3] at h200
      · cases hdb : db req.caseId with
        | none => simp [saveReport, h1, h2, h3, hdb] at h200
        | some rec => simp [saveReport, h1, h2, h3, hdb, CredStore.set]

/-- Counterexample to C3 as stated: the create-intake-credentials
handler writes status "active" at the caseId it renders, with no
existence check, so when the date and the Math.random draw collide with
an existing key (here date 2024-01-01 and draw 1/2, whose base-36
rendering "0.i" yields the suffix "I"), a record whose status is "used"
transitions back to "active". -/
theorem createIntake_reactivates_used :
    ((fun k => if k = "CI-20240101-I" then some ⟨"H", "used"⟩ else none :
        CredStore) "CI-20240101-I").map CredRecord.status = some "used" ∧
    (((createIntake (fun s => s) 2024 1 1 1 1 [171, 205, 18, 52]
        (fun k => if k = "CI-20240101-I" then some ⟨"H", "used"⟩ else none)).2.2.2)
        "CI-20240101-I").map CredRecord.status = some "active" := by
  constructor
  · rfl
  · rfl

/-- C3 (amended): under the operations addressed to an existing
credential — validate and save-report (deactivation) — a "used" status
is terminal: it survives every operation sequence (in particular
re-deactivation), a successful deactivation leaves status "used", and a
subsequent validate on a deactivated credential answers 403 (Forbidden),
never 200, whatever passcode is presented.  (Credential issuance is
excluded: on a case-identifier collision it overwrites any record with a
fresh active one.) -/
theorem used_status_terminal (bcompare : String → String → Bool)
    (ops : List IntakeOp) (db : CredStore) (reports : List CaseReport)
    (caseId : String) :
    ((db caseId).map CredRecord.status = some "used" →
      ((runOps bcompare ops db reports).1 caseId).map CredRecord.status =
        some "used") ∧
    (∀ addOk updateOk req, req.caseId = caseId →
      (saveReport addOk updateOk db reports req).1 = 200 →
      (((saveReport addOk updateOk db reports req).2.1) caseId).map CredRecord.status =
        some "used") ∧
    (∀ passcode, caseId ≠ "" → passcode ≠ "" →
      (db caseId).map CredRecord.status = some "used" →
      (validateIntake bcompare (runOps bcompare ops db reports).1
        caseId passcode).1 = 403) := by
  refine ⟨?_, ?_, ?_⟩
  · intro h
    exact runOps_preserves_used bcompare ops caseId (db, reports) h
  · intro addOk updateOk req hreq h200
    subst hreq
    exact saveReport_success_used addOk updateOk db reports req h200
  · intro p hc hp h
    have hused : ((runOps bcompare ops db reports).1 caseId).map CredRecord.status =
        some "used" :=
      runOps_preserves_used bcompare ops caseId (db, reports) h
    cases hdb : (runOps bcompare ops db reports).1 caseId with
    | none => rw [hdb] at hused; simp at hused
    | some rec =>
        rw [hdb] at hused
        have hs : rec.status = "used" := by simpa using hused
        simp [validateIntake, hc, hp, hdb, hs]

/-- Witness for C3 (amended) at concrete inputs: a used record stays
used across a deactivation and a validate, a successful deactivation of
an active record yields "used", and validating the deactivated record
with its correct passcode answers 403. -/
theorem used_status_terminal_witness :
    (((runOps (fun p h => p == h)
        [IntakeOp.saveReportOp true true ⟨"N", "E", "", "R", "CI-U"⟩,
         IntakeOp.validateOp "CI-U" "PU"]
        (fun k => if k = "CI-U" then some ⟨"PU", "used"⟩ else none) []).1
        "CI-U").map CredRecord.status = some "used") ∧
    (((saveReport true true
        (fun k => if k = "CI-U" then some ⟨"PU", "active"⟩ else none) []
        ⟨"N", "E", "", "R", "CI-U"⟩).2.1) "CI-U").map CredRecord.status =
      some "used" ∧
    (validateIntake (fun p h => p == h)
      (runOps (fun p h => p == h) []
        (fun k => if k = "CI-U" then some ⟨"PU", "used"⟩ else none) []).1
      "CI-U" "PU").1 = 403 := by
  refine ⟨?_, ?_, ?_⟩
  · exact (used_status_terminal (fun p h => p == h)
      [IntakeOp.saveReportOp true true ⟨"N", "E", "", "R", "CI-U"⟩,
       IntakeOp.validateOp "CI-U" "PU"]
      (fun k => if k = "CI-U" then some ⟨"PU", "used"⟩ else none) [] "CI-U").1 rfl
  · exact (used_status_terminal (fun p h => p == h) []
      (fun k => if k = "CI-U" then some ⟨"PU", "active"⟩ else none) [] "CI-U").2.1
      true true ⟨"N", "E", "", "R", "CI-U"⟩ rfl (by decide)
  · exact (used_status_terminal (fun p h => p == h) []
      (fun k => if k = "CI-U" then some ⟨"PU", "used"⟩ else none) [] "CI-U").2.2
      "PU" (by decide) (by decide) rfl

/-! ### Claims about the gating of the validate endpoint -/

/-- The validate handler can only answer 400, 404, 403, 401 or 200. -/
lemma validateIntake_fst_ne_429 (bcompare : String → String → Bool)
    (db : CredStore) (caseId passcode : String) :
    (validateIntake bcompare db caseId passcode).1 ≠ 429 := by
  unfold validateIntake
  split
  · simp
  · split
    · simp
    · split
      · simp
      · split <;> simp

/-- Counterexample to C4 as stated: the validate route is registered
without the rateLimiter middleware (src/server.js line 255, versus
line 63 where /api/gemini carries it), so a burst of 16 rapid validate
calls from one identity is processed in full — here every call reaches
the credential lookup and answers 404 on an empty store; the 16th does
not answer 429.  (The capacity in src/server.js is moreover 20, not
15.) -/
theorem validateBurst_all_processed :
    (validateSeq (fun p h => p == h) (fun _ => none) 16
      "CI-20240101-AB12" "A1B2C3D4").1 = List.replicate 16 404 := by
  rw [validateSeq_eq]
  rfl

/-- C4 (amended): the credential-validation endpoint is not gated by the
sliding-window limiter — no validate request of any burst, of any
length, from any identity, ever answers 429; every request is processed
by the credential handler itself. -/
theorem validateSeq_never_429 (bcompare : String → String → Bool)
    (db : CredStore) (n : Nat) (caseId passcode : String) :
    ∀ s ∈ (validateSeq bcompare db n caseId passcode).1, s ≠ 429 := by
  intro s hmem
  rw [validateSeq_eq] at hmem
  have hs := List.eq_of_mem_replicate hmem
  subst hs
  exact validateIntake_fst_ne_429 bcompare db caseId passcode

/-- Witness for C4 (amended): the 404 answered within a burst of 16
validate calls is not a rate-limit rejection. -/
theorem validateSeq_never_429_witness :
    (404 ∈ (validateSeq (fun p h => p == h) (fun _ => none) 16
      "CI-20240101-AB12" "A1B2C3D4").1) ∧ (404 : Nat) ≠ 429 := by
  refine ⟨by decide, ?_⟩
  exact validateSeq_never_429 (fun p h => p == h) (fun _ => none) 16
    "CI-20240101-AB12" "A1B2C3D4" 404 (by decide)

/-! ### Claim about the finalize path -/

/-- C9: /api/save-report runs report persistence and credential
deactivation as two separate effects in that order, with no
transaction: when the add succeeds and the status update then fails,
the handler answers 500 with the report already persisted and the
credential still active; and when persistence itself fails, nothing at
all is written (deactivation never precedes persistence). -/
theorem saveReport_not_transactional (db : CredStore)
    (reports : List CaseReport) (req : SaveReportRequest) (rec : CredRecord)
    (h1 : req.clientName ≠ "") (h2 : req.clientEmail ≠ "")
    (h3 : req.reportContent ≠ "") (h4 : req.caseId ≠ "")
    (hdb : db req.caseId = some rec) (hact : rec.status = "active") :
    (saveReport true false db reports req).1 = 500 ∧
    (saveReport true false db reports req).2.2 = reports ++ [reportOf req] ∧
    (saveReport true false db reports req).2.1 req.caseId = some rec ∧
    rec.status = "active" ∧
    (∀ updateOk, saveReport false updateOk db reports req = (500, db, reports)) := by
  have hcond : ¬ (req.clientName = "" ∨ req.clientEmail = "" ∨
      req.reportContent = "" ∨ req.caseId = "") := by
    push_neg
    exact ⟨h1, h2, h3, h4⟩
  refine ⟨?_, ?_, ?_, hact, ?_⟩
  · simp [saveReport, hcond]
  · simp [saveReport, hcond]
  · simp [saveReport, hcond, hdb]
  · intro u
    simp [saveReport, hcond]

/-- Witness for C9 at a concrete request and store. -/
theorem saveReport_not_transactional_witness :
    (saveReport true false
      (fun k => if k = "CI-F" then some ⟨"PF", "active"⟩ else none) []
      ⟨"Ann", "a@b.c", "", "text", "CI-F"⟩).1 = 500 ∧
    (saveReport true false
      (fun k => if k = "CI-F" then some ⟨"PF", "active"⟩ else none) []
      ⟨"Ann", "a@b.c", "", "text", "CI-F"⟩).2.2 =
      [reportOf ⟨"Ann", "a@b.c", "", "text", "CI-F"⟩] ∧
    (saveReport true false
      (fun k => if k = "CI-F" then some ⟨"PF", "active"⟩ else none) []
      ⟨"Ann", "a@b.c", "", "text", "CI-F"⟩).2.1 "CI-F" = some ⟨"PF", "active"⟩ := by
  have h := saveReport_not_transactional
    (fun k => if k = "CI-F" then some ⟨"PF", "active"⟩ else none) []
    ⟨"Ann", "a@b.c", "", "text", "CI-F"⟩ ⟨"PF", "active"⟩
    (by decide) (by decide) (by decide) (by decide) rfl rfl
  exact ⟨h.1, h.2.1, h.2.2.1⟩

/-! ### Claims about passcode generation -/

/-- Hex encoding yields two characters per byte. -/
lemma hexEncode_length (bytes : List Nat) :
    (hexEncode bytes).length = 2 * bytes.length := by
  induction bytes with
  | nil => rfl
  | cons b bs ih =>
      have hcons : hexEncode (b :: bs) = byteToHex b ++ hexEncode bs := by
        simp [hexEncode]
      rw [hcons, List.length_append, ih]
      simp [byteToHex]
      omega

/-- Uppercased hex digits of values below 16 land in the uppercase
hexadecimal alphabet. -/
lemma hexDigit_toUpper_mem :
    ∀ n, n < 16 → (hexDigit n).toUpper ∈
      "0123456789ABCDEF".toList := by decide

/-- The uppercased hex digit determines its value below 16. -/
lemma hexDigit_toUpper_inj :
    ∀ a, a < 16 → ∀ b, b < 16 →
      (hexDigit a).toUpper = (hexDigit b).toUpper → a = b := by decide

/-- Every character of the uppercased hex encoding of a byte list is an
uppercase hexadecimal digit. -/
lemma hexEncode_upper_mem (bytes : List Nat) (hb : ∀ b ∈ bytes, b < 256) :
    ∀ c ∈ (hexEncode bytes).map Char.toUpper,
      c ∈ "0123456789ABCDEF".toList := by
  intro c hc
  rw [List.mem_map] at hc
  obtain ⟨c', hc', rfl⟩ := hc
  unfold hexEncode at hc'
  rw [List.mem_flatMap] at hc'
  obtain ⟨x, hx, hcx⟩ := hc'
  have hx0 : x < 256 := hb x hx
  have hcases : c' = hexDigit (x / 16) ∨ c' = hexDigit (x % 16) := by
    simpa [byteToHex] using hcx
  rcases hcases with rfl | rfl
  · exact hexDigit_toUpper_mem _ (Nat.div_lt_of_lt_mul (by omega))
  · exact hexDigit_toUpper_mem _ (Nat.mod_lt _ (by norm_num))

/-- C10: for every 4-byte input, the generated passcode is exactly 8
characters, every character is an uppercase hexadecimal digit (0-9 or
A-F) — hence uppercase alphanumeric — and the hex alphabet is a strict
subset of the uppercase alphanumeric alphabet ('Z' belongs to the
latter but can never occur in a passcode). -/
theorem passcodeOfBytes_upperhex (bytes : List Nat)
    (hlen : bytes.length = 4) (hb : ∀ b ∈ bytes, b < 256) :
    (passcodeOfBytes bytes).length = 8 ∧
    (∀ c ∈ passcodeOfBytes bytes,
      c ∈ "0123456789ABCDEF".toList) ∧
    (∀ c ∈ passcodeOfBytes bytes, c.isAlphanum = true ∧ c.isLower = false) ∧
    ('Z'.isAlphanum = true ∧ 'Z' ∉ passcodeOfBytes bytes) := by
  have hmaplen : ((hexEncode bytes).map Char.toUpper).length = 8 := by
    simp [hexEncode_length, hlen]
  have htake : passcodeOfBytes bytes = (hexEncode bytes).map Char.toUpper := by
    unfold passcodeOfBytes
    exact List.take_of_length_le (by omega)
  have hmem : ∀ c ∈ passcodeOfBytes bytes,
      c ∈ "0123456789ABCDEF".toList := by
    rw [htake]
    exact hexEncode_upper_mem bytes hb
  have hprop : ∀ c ∈ "0123456789ABCDEF".toList, c.isAlphanum = true ∧ c.isLower = false := by
    decide
  have hz : 'Z' ∉ "0123456789ABCDEF".toList := by decide
  refine ⟨by rw [htake]; exact hmaplen, hmem, ?_, by decide, ?_⟩
  · intro c hc
    exact hprop c (hmem c hc)
  · intro h
    exact hz (hmem 'Z' h)

/-- Witness for C10 at the concrete bytes ab cd 12 34 (passcode
"ABCD1234"). -/
theorem passcodeOfBytes_upperhex_witness :
    (passcodeOfBytes [171, 205, 18, 52]).length = 8 ∧
    'A' ∈ "0123456789ABCDEF".toList := by
  refine ⟨(passcodeOfBytes_upperhex [171, 205, 18, 52]
    (by decide) (by decide)).1, ?_⟩
  exact (passcodeOfBytes_upperhex [171, 205, 18, 52]
    (by decide) (by decide)).2.1 'A' (by decide)

/-- Counterexample to C7 as stated: hex-encoding 4 random bytes already
yields exactly 8 characters, so the final slice to 8 characters discards
nothing — at the concrete bytes ab cd 12 34 the truncation is the
identity and the discarded remainder is empty.  No encoded output (and
no entropy) is lost. -/
theorem passcode_truncation_discards_nothing :
    ((hexEncode [171, 205, 18, 52]).map Char.toUpper).take 8 =
      (hexEncode [171, 205, 18, 52]).map Char.toUpper ∧
    ((hexEncode [171, 205, 18, 52]).map Char.toUpper).drop 8 = [] :=
  ⟨rfl, rfl⟩

/-- C7 (amended): the passcode is the hex encoding of the 4 random
bytes, uppercased and sliced to 8 characters; the slice is the identity
(the encoding is already exactly 8 characters), and the map from 4-byte
inputs to passcodes is injective, so the 2^32 seeds yield 2^32 distinct
passcodes: the entropy is exactly 32 bits and none is discarded. -/
theorem passcodeOfBytes_entropy (bytes bytes' : List Nat)
    (hlen : bytes.length = 4) (hb : ∀ b ∈ bytes, b < 256)
    (hlen' : bytes'.length = 4) (hb' : ∀ b ∈ bytes', b < 256) :
    passcodeOfBytes bytes = (hexEncode bytes).map Char.toUpper ∧
    (passcodeOfBytes bytes).length = 8 ∧
    (passcodeOfBytes bytes = passcodeOfBytes bytes' → bytes = bytes') := by
  have htake : ∀ l : List Nat, l.length = 4 →
      passcodeOfBytes l = (hexEncode l).map Char.toUpper := by
    intro l hl
    unfold passcodeOfBytes
    exact List.take_of_length_le (by simp [hexEncode_length, hl])
  refine ⟨htake bytes hlen, ?_, ?_⟩
  · rw [htake bytes hlen]
    simp [hexEncode_length, hlen]
  · intro heq
    rw [htake bytes hlen, htake bytes' hlen'] at heq
    rcases bytes with _ | ⟨b0, _ | ⟨b1, _ | ⟨b2, _ | ⟨b3, _ | ⟨b4, t⟩⟩⟩⟩⟩ <;>
      simp at hlen
    rcases bytes' with _ | ⟨c0, _ | ⟨c1, _ | ⟨c2, _ | ⟨c3, _ | ⟨c4, t'⟩⟩⟩⟩⟩ <;>
      simp at hlen'
    have hb0 : b0 < 256 := hb b0 (by simp)
    have hb1 : b1 < 256 := hb b1 (by simp)
    have hb2 : b2 < 256 := hb b2 (by simp)
    have hb3 : b3 < 256 := hb b3 (by simp)
    have hc0 : c0 < 256 := hb' c0 (by simp)
    have hc1 : c1 < 256 := hb' c1 (by simp)
    have hc2 : c2 < 256 := hb' c2 (by simp)
    have hc3 : c3 < 256 := hb' c3 (by simp)
    simp only [hexEncode, List.flatMap_cons, List.flatMap_nil, byteToHex,
      List.append_nil, List.map_append, List.map_cons, List.map_nil,
      List.cons_append, List.nil_append, List.cons.injEq, and_true] at heq
    obtain ⟨e1, e2, e3, e4, e5, e6, e7, e8⟩ := heq
    have d0 : b0 / 16 < 16 := Nat.div_lt_of_lt_mul (by omega)
    have d1 : b1 / 16 < 16 := Nat.div_lt_of_lt_mul (by omega)
    have d2 : b2 / 16 < 16 := Nat.div_lt_of_lt_mul (by omega)
    have d3 : b3 / 16 < 16 := Nat.div_lt_of_lt_mul (by omega)
    have f0 : c0 / 16 < 16 := Nat.div_lt_of_lt_mul (by omega)
    have f1 : c1 / 16 < 16 := Nat.div_lt_of_lt_mul (by omega)
    have f2 : c2 / 16 < 16 := Nat.div_lt_of_lt_mul (by omega)
    have f3 : c3 / 16 < 16 := Nat.div_lt_of_lt_mul (by omega)
    have m0 : b0 % 16 < 16 := Nat.mod_lt _ (by norm_num)
    have m1 : b1 % 16 < 16 := Nat.mod_lt _ (by norm_num)
    have m2 : b2 % 16 < 16 := Nat.mod_lt _ (by norm_num)
    have m3 : b3 % 16 < 16 := Nat.mod_lt _ (by norm_num)
    have g0 : c0 % 16 < 16 := Nat.mod_lt _ (by norm_num)
    have g1 : c1 % 16 < 16 := Nat.mod_lt _ (by norm_num)
    have g2 : c2 % 16 < 16 := Nat.mod_lt _ (by norm_num)
    have g3 : c3 % 16 < 16 := Nat.mod_lt _ (by norm_num)
    have q1 := hexDigit_toUpper_inj _ d0 _ f0 e1
    have q2 := hexDigit_toUpper_inj _ m0 _ g0 e2
    have q3 := hexDigit_toUpper_inj _ d1 _ f1 e3
    have q4 := hexDigit_toUpper_inj _ m1 _ g1 e4
    have q5 := hexDigit_toUpper_inj _ d2 _ f2 e5
    have q6 := hexDigit_toUpper_inj _ m2 _ g2 e6
    have q7 := hexDigit_toUpper_inj _ d3 _ f3 e7
    have q8 := hexDigit_toUpper_inj _ m3 _ g3 e8
    have : b0 = c0 := by omega
    have : b1 = c1 := by omega
    have : b2 = c2 := by omega
    have : b3 = c3 := by omega
    simp_all

/-- Witness for C7 (amended) at the concrete bytes ab cd 12 34. -/
theorem passcodeOfBytes_entropy_witness :
    passcodeOfBytes [171, 205, 18, 52] =
      (hexEncode [171, 205, 18, 52]).map Char.toUpper ∧
    (passcodeOfBytes [171, 205, 18, 52]).length = 8 := by
  have h := passcodeOfBytes_entropy [171, 205, 18, 52] [171, 205, 18, 52]
    (by decide) (by decide) (by decide) (by decide)
  exact ⟨h.1, h.2.1⟩

/-! ### Claims about case-identifier generation -/

/-- Base-36 digits of values below 36 land in the base-36 alphabet. -/
lemma base36Digit_mem : ∀ m, m < 36 → base36Digit m ∈ base36Digits := by decide

/-- Every character the fraction expansion emits is a base-36 digit,
for any numerator below the denominator 2^n. -/
lemma fracDigits36_mem (fuel : Nat) :
    ∀ k n, k < 2 ^ n → ∀ c ∈ fracDigits36 fuel k n, c ∈ base36Digits := by
  induction fuel with
  | zero => intro k n _ c hc; simp [fracDigits36] at hc
  | succ fuel ih =>
      intro k n hk c hc
      by_cases h0 : k = 0
      · simp [fracDigits36, h0] at hc
      · simp only [fracDigits36, h0, if_false, List.mem_cons] at hc
        rcases hc with rfl | hc
        · exact base36Digit_mem _ (Nat.div_lt_of_lt_mul (by omega))
        · exact ih _ n (Nat.mod_lt _ (Nat.two_pow_pos n)) c hc

/-- Every character of the random suffix is an uppercased base-36
digit. -/
lemma randomPartOf_chars (k n : Nat) (hk : k < 2 ^ n) :
    ∀ c ∈ randomPartOf k n, ∃ c', c' ∈ base36Digits ∧ c = c'.toUpper := by
  intro c hc
  unfold randomPartOf at hc
  rw [List.mem_map] at hc
  obtain ⟨c', hc', rfl⟩ := hc
  refine ⟨c', ?_, rfl⟩
  have hdrop : c' ∈ (jsNumToString36 k n).drop 2 := List.mem_of_mem_take hc'
  unfold jsNumToString36 at hdrop
  by_cases h0 : k = 0
  · simp [h0] at hdrop
  · simp only [h0, if_false, List.drop_succ_cons, List.drop_zero] at hdrop
    exact fracDigits36_mem _ k n hk c' hdrop

/-- Counterexample to C8 as stated: the random suffix does not have a
fixed length of 4 characters.  Math.random() = 0.5 is a legal draw; its
base-36 rendering is "0.i", so substring(2, 6) keeps a single character
and the case identifier generated on 2024-01-01 is "CI-20240101-I",
whose suffix has length 1, not 4. -/
theorem caseIdOf_short_suffix :
    caseIdOf 2024 1 1 1 1 = "CI-20240101-I".toList ∧
    (randomPartOf 1 1).length = 1 :=
  ⟨rfl, rfl⟩

/-- C8 (amended): every generated case identifier has the form
CI-YYYYMMDD-XXXX: the literal prefix CI, the 8-digit current date, a
separator, and a random suffix of uppercase alphanumeric (base-36)
characters whose length is at most 4 — exactly 4 whenever the base-36
rendering of the Math.random draw has at least 6 characters (the typical
case), but shorter for draws with short renderings. -/
theorem caseIdOf_shape (y m d k n : Nat) (hk : k < 2 ^ n) :
    caseIdOf y m d k n =
      "CI-".toList ++ datePartOf y m d ++ ['-'] ++ randomPartOf k n ∧
    (datePartOf y m d).length = 8 ∧
    (randomPartOf k n).length ≤ 4 ∧
    (6 ≤ (jsNumToString36 k n).length → (randomPartOf k n).length = 4) ∧
    (∀ c ∈ randomPartOf k n, c.isAlphanum = true ∧ c.isLower = false) := by
  refine ⟨rfl, rfl, ?_, ?_, ?_⟩
  · unfold randomPartOf
    simp [List.length_take]
  · intro h6
    unfold randomPartOf
    simp [List.length_take]
    omega
  · intro c hc
    obtain ⟨c', hmem, rfl⟩ := randomPartOf_chars k n hk c hc
    have hall : ∀ x ∈ base36Digits,
        (x.toUpper).isAlphanum = true ∧ (x.toUpper).isLower = false := by
      decide
    exact hall c' hmem

/-- Witness for C8 (amended): the draw 600378 / 2^21 renders as
"0.ab0sqestt9" (12 characters), so its suffix "AB0S" has length exactly
4 and consists of uppercase alphanumerics. -/
theorem caseIdOf_shape_witness :
    (randomPartOf 600378 21).length = 4 ∧
    ('A'.isAlphanum = true ∧ 'A'.isLower = false) := by
  refine ⟨?_, ?_⟩
  · exact (caseIdOf_shape 2024 1 1 600378 21 (by decide)).2.2.2.1 (by decide)
  · exact (caseIdOf_shape 2024 1 1 600378 21 (by decide)).2.2.2.2 'A' (by decide)
